import Mathlib

/-!
Shallow embedding of src/nmt/model.py: the masked cross-entropy loss, the
learning-rate warmup and decay schedules, the inference strategy dispatch,
the beam-search state tiling, the bidirectional encoder state assembly,
the inference length cap and the construction-time configuration checks of
the sequence-to-sequence model. Tensor entries are rationals or reals;
framework primitives (such as the per-position sparse softmax cross
entropy) are abstract parameters of the definitions that consume them.
-/

namespace NMT

/-- The three run modes of the model (tf.contrib.learn.ModeKeys). -/
inductive Mode where
  | TRAIN
  | EVAL
  | INFER
deriving DecidableEq

/-- Embeds tf.sequence_mask for one batch element (model.py line 589):
a 0/1 row of length maxTime with ones exactly at the positions strictly
before len. -/
def sequenceMaskRow (len maxTime : Nat) : List ℚ :=
  (List.range maxTime).map (fun t => if t < len then 1 else 0)

/-- Embeds tf.sequence_mask over the whole batch of target lengths. -/
def sequenceMask (lengths : List Nat) (maxTime : Nat) : List (List ℚ) :=
  lengths.map (fun len => sequenceMaskRow len maxTime)

/-- Embeds BaseModel.get_max_time (model.py lines 541-543): the size of
the time axis of the batch-major rectangular target tensor, which is the
common row length. -/
def getMaxTime (targetOutput : List (List Nat)) : Nat :=
  match targetOutput with
  | [] => 0
  | row :: _ => row.length

/-- Elementwise tf.nn.sparse_softmax_cross_entropy_with_logits over the
batch (model.py line 586). The framework primitive xent takes the logit
row and the label token id of one position. -/
def crossentMatrix (xent : List ℚ → Nat → ℚ) (logits : List (List (List ℚ)))
    (targetOutput : List (List Nat)) : List (List ℚ) :=
  List.zipWith (fun lrow trow => List.zipWith xent lrow trow) logits targetOutput

/-- Embeds BaseModel._compute_loss (model.py lines 562-597), batch-major:
the elementwise product of the cross entropy with the sequence mask is
summed over all axes and divided by the batch size. -/
def computeLoss (xent : List ℚ → Nat → ℚ) (logits : List (List (List ℚ)))
    (targetOutput : List (List Nat)) (targetLengths : List Nat)
    (batchSize : Nat) : ℚ :=
  ((List.zipWith (fun crow wrow => List.zipWith (fun c w => c * w) crow wrow)
      (crossentMatrix xent logits targetOutput)
      (sequenceMask targetLengths (getMaxTime targetOutput))).map List.sum).sum
    / (batchSize : ℚ)

/-- The warmup factor exp(log 0.01 / warmup_steps) (model.py line 198). -/
noncomputable def warmupFactor (warmupSteps : Nat) : ℝ :=
  Real.exp (Real.log 0.01 / (warmupSteps : ℝ))

/-- The scheme dispatch of BaseModel._get_learning_rate_warmup (model.py
lines 196-203): only the "t2t" scheme is built, any other name raises
ValueError. -/
def warmupSchemeCheck (warmupScheme : String) : Except String Unit :=
  if warmupScheme = "t2t" then Except.ok ()
  else Except.error ("Unknown warmup scheme " ++ warmupScheme)

/-- Embeds BaseModel._get_learning_rate_warmup (model.py lines 185-209).
The exponent warmup_steps - global_step is taken in Nat; it agrees with
the int subtraction of the source on the branch where the factor is
applied, which requires global_step < warmup_steps. -/
noncomputable def getLearningRateWarmup (warmupScheme : String)
    (warmupSteps globalStep : Nat) (learningRate : ℝ) : Except String ℝ :=
  match warmupSchemeCheck warmupScheme with
  | Except.error e => Except.error e
  | Except.ok _ =>
    Except.ok
      (if globalStep < warmupSteps then
        warmupFactor warmupSteps ^ (warmupSteps - globalStep) * learningRate
      else learningRate)

/-- Embeds the scheme dispatch of BaseModel._get_learning_rate_decay
(model.py lines 211-236), producing (start_decay_step, decay_steps,
decay_factor). The int(...) truncations of the source on nonnegative
quantities are Nat division; the float factors 0.5 and 1.0 are kept as
the exact rationals they denote. -/
def decayParams (decayScheme : String) (numTrainSteps : Nat) :
    Except String (Nat × Nat × ℚ) :=
  if decayScheme = "luong5" ∨ decayScheme = "luong10" ∨ decayScheme = "luong234" then
    let startDecayStep :=
      if decayScheme = "luong5" then numTrainSteps / 2
      else if decayScheme = "luong10" then numTrainSteps / 2
      else numTrainSteps * 2 / 3
    let decayTimes : Nat :=
      if decayScheme = "luong5" then 5
      else if decayScheme = "luong10" then 10
      else 4
    Except.ok (startDecayStep, (numTrainSteps - startDecayStep) / decayTimes, (0.5 : ℚ))
  else if decayScheme = "" then
    Except.ok (numTrainSteps, 0, (1.0 : ℚ))
  else
    Except.error ("Unknown decay scheme " ++ decayScheme)

/-- Embeds the tf.cond around tf.train.exponential_decay with
staircase=True of BaseModel._get_learning_rate_decay (model.py lines
238-245): past start_decay_step the rate is multiplied by the factor
raised to the floored quotient of the step offset by decay_steps. -/
noncomputable def decayRate (startDecayStep decaySteps : Nat) (decayFactor : ℝ)
    (globalStep : Nat) (learningRate : ℝ) : ℝ :=
  if globalStep < startDecayStep then learningRate
  else learningRate * decayFactor ^ ((globalStep - startDecayStep) / decaySteps)

/-- The decay stage as a whole: derive the preset, then apply the rate. -/
noncomputable def getLearningRateDecay (decayScheme : String)
    (numTrainSteps globalStep : Nat) (learningRate : ℝ) : Except String ℝ :=
  match decayParams decayScheme numTrainSteps with
  | Except.error e => Except.error e
  | Except.ok (startDecayStep, decaySteps, decayFactor) =>
      Except.ok (decayRate startDecayStep decaySteps (decayFactor : ℝ) globalStep learningRate)

/-- The three inference generation strategies of BaseModel._build_decoder. -/
inductive DecodeStrategy where
  | beamSearch (beamWidth : Nat)
  | sampling (temperature : ℚ)
  | greedy
deriving DecidableEq

/-- Embeds the strategy dispatch of BaseModel._build_decoder in INFER mode
(model.py lines 466-519): the beam search decoder when beam_width > 0,
otherwise the sampling helper when sampling_temperature > 0.0, otherwise
the greedy helper. -/
def selectDecodeStrategy (beamWidth : Nat) (samplingTemperature : ℚ) : DecodeStrategy :=
  if beamWidth > 0 then DecodeStrategy.beamSearch beamWidth
  else if samplingTemperature > 0 then DecodeStrategy.sampling samplingTemperature
  else DecodeStrategy.greedy

/-- The fields of the dynamic_decode result consumed by model.py lines
531-537: rnn_output and sample_id from a BasicDecoder, predicted_ids from
a BeamSearchDecoder. -/
structure DecoderOutputs (α β : Type) where
  rnn_output : α
  sample_id : β
  predicted_ids : β

/-- The logits slot of the inference result: either the decoder
rnn_output, or the tf.no_op placeholder used on the beam-search path. -/
inductive InferLogits (α : Type) where
  | noOp
  | fromRnnOutput (x : α)
deriving DecidableEq

/-- Embeds model.py lines 531-537: the (logits, sample_id) selection after
dynamic decoding in INFER mode. -/
def inferOutputSelect {α β : Type} (beamWidth : Nat) (outputs : DecoderOutputs α β) :
    InferLogits α × β :=
  if beamWidth > 0 then (InferLogits.noOp, outputs.predicted_ids)
  else (InferLogits.fromRnnOutput outputs.rnn_output, outputs.sample_id)

/-- Embeds tf.contrib.seq2seq.tile_batch on a batch-indexed value: each
batch entry is repeated multiplier times in place along the batch axis. -/
def tileBatch {σ : Type} (multiplier : Nat) (t : List σ) : List σ :=
  t.flatMap (fun x => List.replicate multiplier x)

/-- Embeds Model._build_decoder_cell (model.py lines 767-792): rejects
attention on the basic model, and tiles the encoder state beam_width times
exactly when the mode is INFER and beam_width > 0. -/
def buildDecoderCell {σ : Type} (attention : Bool) (mode : Mode) (beamWidth : Nat)
    (encoderState : List σ) : Except String (List σ) :=
  if attention then Except.error "BasicModel does not support attention."
  else
    Except.ok
      (if mode = Mode.INFER ∧ beamWidth > 0 then tileBatch beamWidth encoderState
       else encoderState)

/-- Embeds BaseModel._get_infer_maximum_iterations (model.py lines
356-368): the configured cap when it is set (nonzero), else the rounding
of 2.0 times the largest observed source length. -/
def getInferMaximumIterations (tgtMaxLenInfer : Nat) (sourceSequenceLength : List Nat) : Nat :=
  if tgtMaxLenInfer ≠ 0 then tgtMaxLenInfer
  else (round (((sourceSequenceLength.foldr max 0 : Nat) : ℚ) * 2)).toNat

/-- The final state of the bidirectional encoder: either the raw
(forward, backward) pair, or the interleaved flat tuple (model.py lines
694-703). -/
inductive EncoderFinalState (σ : Type) where
  | pair (fw bw : List σ)
  | interleaved (states : List σ)
deriving DecidableEq

/-- num_bi_layers = int(num_layers / 2) (model.py line 675). -/
def numBiLayersOf (numLayers : Nat) : Nat := numLayers / 2

/-- The interleaving loop of model.py lines 698-703: for each layer id in
range, append the forward state of that layer, then the backward state. -/
def interleaveStates {σ : Type} [Inhabited σ] (numBiLayers : Nat) (fw bw : List σ) :
    List σ :=
  (List.range numBiLayers).flatMap
    (fun layerId => [fw.getD layerId default, bw.getD layerId default])

/-- Embeds the encoder_state assembly of the bidirectional branch of
Model._build_encoder (model.py lines 694-703). -/
def biEncoderState {σ : Type} [Inhabited σ] (numBiLayers : Nat) (fw bw : List σ) :
    EncoderFinalState σ :=
  if numBiLayers = 1 then EncoderFinalState.pair fw bw
  else EncoderFinalState.interleaved (interleaveStates numBiLayers fw bw)

/-- The hyperparameter fields consumed by the construction-time checks. -/
structure HParams where
  warmup_scheme : String
  warmup_steps : Nat
  decay_scheme : String
  num_train_steps : Nat
  encoder_type : String
  attention : Bool
  beam_width : Nat

/-- The encoder_type dispatch of Model._build_encoder (model.py lines
660-705): the uni and bi branches build an encoder, any other name raises
ValueError. -/
def checkEncoderType (encoderType : String) : Except String Unit :=
  if encoderType = "uni" then Except.ok ()
  else if encoderType = "bi" then Except.ok ()
  else Except.error ("Unknown encoder_type " ++ encoderType)

/-- Embeds the construction-time control flow of BaseModel.__init__ as it
concerns configuration errors: build_graph (model.py line 115) runs the
encoder (encoder_type check) and the decoder cell (attention check) in
every mode, while the warmup and decay schemes are examined only when the
mode is TRAIN (model.py lines 139-144). -/
def modelConstruct (mode : Mode) (h : HParams) : Except String Unit :=
  match checkEncoderType h.encoder_type with
  | Except.error e => Except.error e
  | Except.ok _ =>
    match buildDecoderCell h.attention mode h.beam_width ([] : List Unit) with
    | Except.error e => Except.error e
    | Except.ok _ =>
      if mode = Mode.TRAIN then
        match warmupSchemeCheck h.warmup_scheme with
        | Except.error e => Except.error e
        | Except.ok _ =>
          match decayParams h.decay_scheme h.num_train_steps with
          | Except.error e => Except.error e
          | Except.ok _ => Except.ok ()
      else Except.ok ()

/-- An EVAL-mode configuration carrying an unrecognized warmup scheme. -/
def cfgBadWarmupEval : HParams :=
  { warmup_scheme := "bogus", warmup_steps := 10, decay_scheme := "",
    num_train_steps := 100, encoder_type := "uni",
    attention := false, beam_width := 0 }

/-- A fully well-formed TRAIN-mode configuration. -/
def cfgGoodTrain : HParams :=
  { warmup_scheme := "t2t", warmup_steps := 10, decay_scheme := "luong5",
    num_train_steps := 100, encoder_type := "bi",
    attention := false, beam_width := 0 }

section LossTheorems

/-- Peeling one time step off a sequence mask row. -/
lemma sequenceMaskRow_succ (len m : Nat) :
    sequenceMaskRow len (m + 1)
      = (if 0 < len then (1 : ℚ) else 0) :: sequenceMaskRow (len - 1) m := by
  unfold sequenceMaskRow
  rw [List.range_succ_eq_map]
  simp only [List.map_cons, List.map_map]
  refine congrArg₂ _ rfl ?_
  refine List.map_congr_left (fun t _ => ?_)
  have h : (Nat.succ t < len) ↔ (t < len - 1) := by omega
  simp [Function.comp, h]

/-- The masked cross entropy of one batch row sums to the per-position
cross entropy at the positions before the true length. -/
lemma maskedRow_sum (xent : List ℚ → Nat → ℚ) (m : Nat) :
    ∀ (lrow : List (List ℚ)) (trow : List Nat) (len : Nat),
      lrow.length = m → trow.length = m →
      (List.zipWith (fun c w => c * w) (List.zipWith xent lrow trow)
          (sequenceMaskRow len m)).sum
        = ∑ t in Finset.range m,
            if t < len then xent (lrow.getD t []) (trow.getD t 0) else 0 := by
  induction m with
  | zero =>
    intro lrow trow len h1 h2
    simp [sequenceMaskRow]
  | succ m ih =>
    intro lrow trow len h1 h2
    cases lrow with
    | nil => simp at h1
    | cons a lrow =>
      cases trow with
      | nil => simp at h2
      | cons b trow =>
        rw [sequenceMaskRow_succ]
        simp only [List.zipWith_cons_cons, List.sum_cons]
        rw [ih lrow trow (len - 1) (by simpa using h1) (by simpa using h2)]
        rw [Finset.sum_range_succ']
        simp only [List.getD_cons_succ, List.getD_cons_zero]
        have hhead : xent a b * (if 0 < len then (1 : ℚ) else 0)
            = (if 0 < len then xent a b else 0) := by
          by_cases h : 0 < len <;> simp [h]
        have htail : (∑ t in Finset.range m,
              if t < len - 1 then xent (lrow.getD t []) (trow.getD t 0) else 0)
            = ∑ t in Finset.range m,
              if t + 1 < len then xent (lrow.getD t []) (trow.getD t 0) else 0 := by
          refine Finset.sum_congr rfl (fun t _ => ?_)
          have h : (t < len - 1) ↔ (t + 1 < len) := by omega
          simp [h]
        rw [hhead, htail]
        exact add_comm _ _

/-- The masked cross entropy of a rectangular batch sums to the doubly
indexed sum of per-position cross entropies below the true lengths. -/
lemma maskedBatch_sum (xent : List ℚ → Nat → ℚ) (m : Nat) :
    ∀ (lens : List Nat) (logits : List (List (List ℚ))) (tgt : List (List Nat)),
      logits.length = lens.length → tgt.length = lens.length →
      (∀ row ∈ logits, row.length = m) → (∀ row ∈ tgt, row.length = m) →
      ((List.zipWith (fun crow wrow => List.zipWith (fun c w => c * w) crow wrow)
          (crossentMatrix xent logits tgt) (sequenceMask lens m)).map List.sum).sum
        = ∑ b in Finset.range lens.length, ∑ t in Finset.range m,
            if t < lens.getD b 0 then
              xent ((logits.getD b []).getD t []) ((tgt.getD b []).getD t 0)
            else 0 := by
  intro lens
  induction lens with
  | nil =>
    intro logits tgt hlog htgt _ _
    rw [List.length_eq_zero.mp hlog, List.length_eq_zero.mp htgt]
    simp [crossentMatrix, sequenceMask]
  | cons len0 lens ih =>
    intro logits tgt hlog htgt hrL hrT
    cases logits with
    | nil => simp at hlog
    | cons lr logits =>
      cases tgt with
      | nil => simp at htgt
      | cons tr tgt =>
        simp only [crossentMatrix, sequenceMask, List.map_cons,
          List.zipWith_cons_cons, List.sum_cons]
        rw [maskedRow_sum xent m lr tr len0 (hrL lr (by simp)) (hrT tr (by simp))]
        have ihtail := ih logits tgt (by simpa using hlog) (by simpa using htgt)
          (fun row hrow => hrL row (by simp [hrow]))
          (fun row hrow => hrT row (by simp [hrow]))
        simp only [crossentMatrix, sequenceMask] at ihtail
        rw [ihtail]
        rw [List.length_cons, Finset.sum_range_succ']
        simp only [List.getD_cons_succ, List.getD_cons_zero]
        exact add_comm _ _

/-- Bridge: _compute_loss on a rectangular batch equals the doubly indexed
masked sum of per-position cross entropies divided by the batch size. -/
lemma computeLoss_eq_sum (xent : List ℚ → Nat → ℚ)
    (logits : List (List (List ℚ))) (tgt : List (List Nat)) (lens : List Nat)
    (B m : Nat) (hlog : logits.length = B) (htgt : tgt.length = B)
    (hlen : lens.length = B)
    (hrectL : ∀ row ∈ logits, row.length = m)
    (hrectT : ∀ row ∈ tgt, row.length = m) :
    computeLoss xent logits tgt lens B
      = (∑ b in Finset.range B, ∑ t in Finset.range m,
          if t < lens.getD b 0 then
            xent ((logits.getD b []).getD t []) ((tgt.getD b []).getD t 0)
          else 0) / (B : ℚ) := by
  cases B with
  | zero =>
    rw [List.length_eq_zero.mp hlog, List.length_eq_zero.mp htgt,
      List.length_eq_zero.mp hlen]
    simp [computeLoss, crossentMatrix, sequenceMask]
  | succ n =>
    have hmt : getMaxTime tgt = m := by
      cases tgt with
      | nil => simp at htgt
      | cons r rest => exact hrectT r (by simp)
    unfold computeLoss
    rw [hmt, maskedBatch_sum xent m lens logits tgt (hlog.trans hlen.symm)
      (htgt.trans hlen.symm) hrectL hrectT, hlen]

end LossTheorems

/-- C1: the training and eval loss computed by _compute_loss equals the sum
over all (batch, time) positions of per-position cross entropy between the
target-output token and the predicted logits, with every time step at or
beyond the true target length of its sequence zeroed by the mask derived
from target_sequence_length, and this masked sum is divided by the batch
size only, not by batch size times the number of time steps. -/
theorem C1_loss_masked_sum_div_batch (xent : List ℚ → Nat → ℚ)
    (logits : List (List (List ℚ))) (tgt : List (List Nat)) (lens : List Nat)
    (B m : Nat) (hlog : logits.length = B) (htgt : tgt.length = B)
    (hlen : lens.length = B)
    (hrectL : ∀ row ∈ logits, row.length = m)
    (hrectT : ∀ row ∈ tgt, row.length = m) :
    computeLoss xent logits tgt lens B
      = (∑ b in Finset.range B, ∑ t in Finset.range m,
          if t < lens.getD b 0 then
            xent ((logits.getD b []).getD t []) ((tgt.getD b []).getD t 0)
          else 0) / (B : ℚ) :=
  computeLoss_eq_sum xent logits tgt lens B m hlog htgt hlen hrectL hrectT

/-- Witness for C1 on a concrete batch of two sequences padded to three
steps, with true lengths 1 and 3. -/
theorem C1_witness :
    ([[1, 9, 9], [2, 2, 1]] : List (List Nat)).length = 2 ∧
    (∀ row ∈ ([[1, 9, 9], [2, 2, 1]] : List (List Nat)), row.length = 3) ∧
    computeLoss (fun l g => l.sum + (g : ℚ))
        [[[1], [2], [3]], [[4], [5], [6]]] [[1, 9, 9], [2, 2, 1]] [1, 3] 2
      = (∑ b in Finset.range 2, ∑ t in Finset.range 3,
          if t < ([1, 3] : List Nat).getD b 0 then
            (fun (l : List ℚ) (g : Nat) => l.sum + (g : ℚ))
              ((([[[1], [2], [3]], [[4], [5], [6]]] : List (List (List ℚ))).getD b []).getD t [])
              ((([[1, 9, 9], [2, 2, 1]] : List (List Nat)).getD b []).getD t 0)
          else 0) / (2 : ℚ) :=
  ⟨by decide, by decide,
    C1_loss_masked_sum_div_batch (fun l g => l.sum + (g : ℚ))
      [[[1], [2], [3]], [[4], [5], [6]]] [[1, 9, 9], [2, 2, 1]] [1, 3] 2 3
      (by decide) (by decide) (by decide) (by decide) (by decide)⟩

/-- C4: two batches that agree on target lengths, on the target-output
tokens before each true length and on the logits there, and differ only at
positions at or beyond the true lengths, receive identical losses from
_compute_loss. -/
theorem C4_loss_padding_invariance (xent : List ℚ → Nat → ℚ)
    (logits logits' : List (List (List ℚ))) (tgt tgt' : List (List Nat))
    (lens : List Nat) (B m : Nat)
    (hlog : logits.length = B) (htgt : tgt.length = B)
    (hlog' : logits'.length = B) (htgt' : tgt'.length = B)
    (hlen : lens.length = B)
    (hrectL : ∀ row ∈ logits, row.length = m)
    (hrectT : ∀ row ∈ tgt, row.length = m)
    (hrectL' : ∀ row ∈ logits', row.length = m)
    (hrectT' : ∀ row ∈ tgt', row.length = m)
    (hagree : ∀ b, b < B → ∀ t, t < lens.getD b 0 →
      (logits.getD b []).getD t [] = (logits'.getD b []).getD t [] ∧
      (tgt.getD b []).getD t 0 = (tgt'.getD b []).getD t 0) :
    computeLoss xent logits tgt lens B = computeLoss xent logits' tgt' lens B := by
  rw [computeLoss_eq_sum xent logits tgt lens B m hlog htgt hlen hrectL hrectT,
    computeLoss_eq_sum xent logits' tgt' lens B m hlog' htgt' hlen hrectL' hrectT']
  refine congrArg (fun z => z / (B : ℚ)) ?_
  refine Finset.sum_congr rfl (fun b hb => ?_)
  refine Finset.sum_congr rfl (fun t _ => ?_)
  by_cases hlt : t < lens.getD b 0
  · obtain ⟨h1, h2⟩ := hagree b (Finset.mem_range.mp hb) t hlt
    rw [if_pos hlt, if_pos hlt, h1, h2]
  · rw [if_neg hlt, if_neg hlt]

/-- Witness for C4: the second batch rewrites the padded tail of the first
sequence (true length 1, padded to 3) yet the loss is unchanged. -/
theorem C4_witness :
    (∀ b, b < 2 → ∀ t, t < ([1, 3] : List Nat).getD b 0 →
      ((([[[1], [2], [3]], [[4], [5], [6]]] : List (List (List ℚ))).getD b []).getD t []
        = (([[[1], [7], [8]], [[4], [5], [6]]] : List (List (List ℚ))).getD b []).getD t []) ∧
      ((([[1, 9, 9], [2, 2, 1]] : List (List Nat)).getD b []).getD t 0
        = (([[1, 0, 5], [2, 2, 1]] : List (List Nat)).getD b []).getD t 0)) ∧
    computeLoss (fun l g => l.sum + (g : ℚ))
        [[[1], [2], [3]], [[4], [5], [6]]] [[1, 9, 9], [2, 2, 1]] [1, 3] 2
      = computeLoss (fun l g => l.sum + (g : ℚ))
        [[[1], [7], [8]], [[4], [5], [6]]] [[1, 0, 5], [2, 2, 1]] [1, 3] 2 :=
  ⟨by decide,
    C4_loss_padding_invariance (fun l g => l.sum + (g : ℚ))
      [[[1], [2], [3]], [[4], [5], [6]]] [[[1], [7], [8]], [[4], [5], [6]]]
      [[1, 9, 9], [2, 2, 1]] [[1, 0, 5], [2, 2, 1]] [1, 3] 2 3
      (by decide) (by decide) (by decide) (by decide) (by decide)
      (by decide) (by decide) (by decide) (by decide) (by decide)⟩

/-- The t2t warmup factor raised to warmup_steps recovers the constant
0.01 that it is the warmup_steps-th root of. -/
lemma warmupFactor_pow_self (w : Nat) (hw : 0 < w) : warmupFactor w ^ w = 0.01 := by
  unfold warmupFactor
  rw [← Real.exp_nat_mul, mul_comm,
    div_mul_cancel₀ _ (Nat.cast_ne_zero.mpr hw.ne' : (w : ℝ) ≠ 0)]
  exact Real.exp_log (by norm_num)

/-- Reduction of the t2t branch of the warmup stage. -/
lemma getLearningRateWarmup_t2t (w s : Nat) (lr : ℝ) :
    getLearningRateWarmup "t2t" w s lr
      = Except.ok (if s < w then warmupFactor w ^ (w - s) * lr else lr) := rfl

/-- C2: under the t2t warmup scheme, every global step strictly below
warmup_steps scales the base rate by warmupFactor ^ (warmup_steps - step)
with warmupFactor = exp(log 0.01 / warmup_steps); hence the rate at step 0
is exactly 0.01 times the base rate, and from warmup_steps on the warmup
stage returns the base rate unchanged. -/
theorem C2_warmup_t2t (w s : Nat) (lr : ℝ) (hw : 0 < w) :
    (s < w → getLearningRateWarmup "t2t" w s lr
        = Except.ok (warmupFactor w ^ (w - s) * lr)) ∧
    getLearningRateWarmup "t2t" w 0 lr = Except.ok (0.01 * lr) ∧
    (∀ s2 : Nat, w ≤ s2 → getLearningRateWarmup "t2t" w s2 lr = Except.ok lr) := by
  refine ⟨fun hs => ?_, ?_, fun s2 hs2 => ?_⟩
  · rw [getLearningRateWarmup_t2t, if_pos hs]
  · rw [getLearningRateWarmup_t2t, if_pos hw, Nat.sub_zero, warmupFactor_pow_self w hw]
  · rw [getLearningRateWarmup_t2t, if_neg (Nat.not_lt.mpr hs2)]

/-- Witness for C2 at warmup_steps = 2, step = 0, base rate 1. -/
theorem C2_witness :
    0 < 2 ∧ getLearningRateWarmup "t2t" 2 0 1 = Except.ok (0.01 * 1) :=
  ⟨by decide, (C2_warmup_t2t 2 0 1 (by decide)).2.1⟩

/-- C3: the luong5, luong10 and luong234 presets derive
(start_decay_step, decay_steps) as (n/2, (n - n/2)/5), (n/2, (n - n/2)/10)
and (n*2/3, (n - n*2/3)/4) with integer division and factor 0.5; past
start_decay_step the rate is the base rate times 0.5 to the floored
staircase exponent, so it is non-increasing there; in particular luong5
with 1000 training steps gives start 500, decay_steps 100, and at step 700
the rate is base times 0.5 squared. -/
theorem C3_luong_decay (n : Nat) (base : ℝ) (hbase : 0 ≤ base) :
    decayParams "luong5" n = Except.ok (n / 2, (n - n / 2) / 5, (0.5 : ℚ)) ∧
    decayParams "luong10" n = Except.ok (n / 2, (n - n / 2) / 10, (0.5 : ℚ)) ∧
    decayParams "luong234" n
      = Except.ok (n * 2 / 3, (n - n * 2 / 3) / 4, (0.5 : ℚ)) ∧
    (∀ start dsteps step : Nat, start ≤ step →
      decayRate start dsteps (0.5 : ℝ) step base
        = base * (0.5 : ℝ) ^ ((step - start) / dsteps)) ∧
    (∀ start dsteps step step2 : Nat, start ≤ step → step ≤ step2 →
      decayRate start dsteps (0.5 : ℝ) step2 base
        ≤ decayRate start dsteps (0.5 : ℝ) step base) ∧
    decayParams "luong5" 1000 = Except.ok (500, 100, (0.5 : ℚ)) ∧
    getLearningRateDecay "luong5" 1000 700 base
      = Except.ok (base * (0.5 : ℝ) ^ 2) := by
  have hrate : ∀ start dsteps step : Nat, start ≤ step →
      decayRate start dsteps (0.5 : ℝ) step base
        = base * (0.5 : ℝ) ^ ((step - start) / dsteps) := by
    intro start dsteps step h
    unfold decayRate
    rw [if_neg (Nat.not_lt.mpr h)]
  have hmono : ∀ start dsteps step step2 : Nat, start ≤ step → step ≤ step2 →
      decayRate start dsteps (0.5 : ℝ) step2 base
        ≤ decayRate start dsteps (0.5 : ℝ) step base := by
    intro start dsteps step step2 h1 h2
    rw [hrate start dsteps step h1, hrate start dsteps step2 (h1.trans h2)]
    refine mul_le_mul_of_nonneg_left ?_ hbase
    refine pow_le_pow_of_le_one (by norm_num) (by norm_num) ?_
    exact Nat.div_le_div_right (Nat.sub_le_sub_right h2 start)
  have hc : ((0.5 : ℚ) : ℝ) = (0.5 : ℝ) := by norm_num
  refine ⟨rfl, rfl, rfl, hrate, hmono, rfl, ?_⟩
  show Except.ok (decayRate 500 100 ((0.5 : ℚ) : ℝ) 700 base) = _
  rw [hc, hrate 500 100 700 (by norm_num)]

/-- Witness for C3 at n = 1000, base rate 1. -/
theorem C3_witness :
    (0 : ℝ) ≤ 1 ∧ getLearningRateDecay "luong5" 1000 700 1
      = Except.ok (1 * (0.5 : ℝ) ^ 2) :=
  ⟨zero_le_one, (C3_luong_decay 1000 1 zero_le_one).2.2.2.2.2.2⟩

/-- C10: with an empty decay scheme the derived parameters are
(num_train_steps, 0, 1.0), and for every global step strictly below
num_train_steps the decay stage takes the guard branch and returns the
warmed-up rate unchanged, so the staircase quotient by decay_steps = 0 is
never computed under the precondition step < num_train_steps. -/
theorem C10_no_decay_identity_below_num_train_steps (n step : Nat) (lr : ℝ)
    (hstep : step < n) :
    decayParams "" n = Except.ok (n, 0, (1.0 : ℚ)) ∧
    decayRate n 0 ((1.0 : ℚ) : ℝ) step lr = lr ∧
    getLearningRateDecay "" n step lr = Except.ok lr := by
  have h2 : decayRate n 0 ((1.0 : ℚ) : ℝ) step lr = lr := by
    unfold decayRate
    rw [if_pos hstep]
  refine ⟨rfl, h2, ?_⟩
  show Except.ok (decayRate n 0 ((1.0 : ℚ) : ℝ) step lr) = _
  rw [h2]

/-- Witness for C10 at num_train_steps = 10, step = 3. -/
theorem C10_witness : 3 < 10 ∧ getLearningRateDecay "" 10 3 1 = Except.ok 1 :=
  ⟨by decide, (C10_no_decay_identity_below_num_train_steps 10 3 1 (by decide)).2.2⟩

/-- tile_batch on a batch with one more entry prepends that entry
multiplier times. -/
lemma tileBatch_cons {σ : Type} (k : Nat) (x : σ) (s : List σ) :
    tileBatch k (x :: s) = List.replicate k x ++ tileBatch k s := by
  simp [tileBatch]

/-- tile_batch multiplies the batch length by the multiplier. -/
lemma tileBatch_length {σ : Type} (k : Nat) (s : List σ) :
    (tileBatch k s).length = k * s.length := by
  induction s with
  | nil => simp [tileBatch]
  | cons x s ih =>
    rw [tileBatch_cons]
    simp only [List.length_append, List.length_replicate, List.length_cons, ih]
    ring

/-- Position k * i + j of the tiled batch holds the i-th original entry,
for every j below the multiplier: each entry appears k times in place. -/
lemma tileBatch_getD {σ : Type} (k : Nat) (d : σ) :
    ∀ (s : List σ) (i j : Nat), i < s.length → j < k →
      (tileBatch k s).getD (k * i + j) d = s.getD i d := by
  intro s
  induction s with
  | nil =>
    intro i j hi _
    simp at hi
  | cons x s ih =>
    intro i j hi hj
    rw [tileBatch_cons]
    cases i with
    | zero =>
      have hjk : k * 0 + j < (List.replicate k x).length := by
        simp
        omega
      rw [List.getD_append _ _ _ _ hjk]
      rw [List.getD_eq_getElem _ _ (by simpa using (by omega : j < k))]
      simp [List.getElem_replicate]
    | succ i =>
      have hidx : k * (i + 1) + j = (List.replicate k x).length + (k * i + j) := by
        simp only [List.length_replicate]
        ring
      rw [hidx, List.getD_append_right _ _ _ _ (Nat.le_add_right _ _),
        Nat.add_sub_cancel_left, List.getD_cons_succ]
      exact ih i j (by simpa using hi) hj

/-- C5: in INFER mode with beam_width = k > 0 the decoder initial state is
the encoder final state tiled k times (each batch entry repeated k times
in place, so the tiled state has k times the length and position k*i+j
holds entry i), while with beam_width = 0 the initial state is the encoder
state unchanged; after decoding, the beam path returns the no-op
placeholder as logits together with predicted_ids, and the non-beam path
returns rnn_output as logits together with sample_id. -/
theorem C5_beam_tiling_and_outputs (σ α β : Type) (d : σ) (s : List σ)
    (k : Nat) (out : DecoderOutputs α β) :
    (0 < k → buildDecoderCell false Mode.INFER k s = Except.ok (tileBatch k s)) ∧
    buildDecoderCell false Mode.INFER 0 s = Except.ok s ∧
    (tileBatch k s).length = k * s.length ∧
    (∀ i j : Nat, i < s.length → j < k →
      (tileBatch k s).getD (k * i + j) d = s.getD i d) ∧
    (0 < k → inferOutputSelect k out = (InferLogits.noOp, out.predicted_ids)) ∧
    inferOutputSelect 0 out
      = (InferLogits.fromRnnOutput out.rnn_output, out.sample_id) := by
  refine ⟨fun hk => ?_, ?_, tileBatch_length k s, tileBatch_getD k d s,
    fun hk => ?_, ?_⟩
  · simp [buildDecoderCell, hk]
  · simp [buildDecoderCell]
  · simp [inferOutputSelect, hk]
  · simp [inferOutputSelect]

/-- Witness for C5 with beam width 3 over a two-entry state batch. -/
theorem C5_witness :
    0 < 3 ∧
    buildDecoderCell false Mode.INFER 3 ([10, 20] : List Nat)
      = Except.ok (tileBatch 3 [10, 20]) ∧
    inferOutputSelect 3 (DecoderOutputs.mk 7 8 9 : DecoderOutputs Nat Nat)
      = (InferLogits.noOp, 9) :=
  ⟨by decide,
    (C5_beam_tiling_and_outputs Nat Nat Nat 0 [10, 20] 3
      (DecoderOutputs.mk 7 8 9)).1 (by decide),
    (C5_beam_tiling_and_outputs Nat Nat Nat 0 [10, 20] 3
      (DecoderOutputs.mk 7 8 9)).2.2.2.2.1 (by decide)⟩

/-- Appending one more layer to the interleaving loop. -/
lemma interleaveStates_succ {σ : Type} [Inhabited σ] (n : Nat) (fw bw : List σ) :
    interleaveStates (n + 1) fw bw
      = interleaveStates n fw bw ++ [fw.getD n default, bw.getD n default] := by
  unfold interleaveStates
  rw [List.range_succ]
  simp

/-- The interleaved state list has two entries per bidirectional layer. -/
lemma interleaveStates_length {σ : Type} [Inhabited σ] (fw bw : List σ) :
    ∀ n : Nat, (interleaveStates n fw bw).length = 2 * n := by
  intro n
  induction n with
  | zero => simp [interleaveStates]
  | succ n ih =>
    rw [interleaveStates_succ]
    simp only [List.length_append, List.length_cons, List.length_nil, ih]
    omega

/-- Positions 2i and 2i+1 of the interleaved state list hold the forward
and backward states of layer i. -/
lemma interleaveStates_getD {σ : Type} [Inhabited σ] (fw bw : List σ) :
    ∀ n i : Nat, i < n →
      (interleaveStates n fw bw).getD (2 * i) default = fw.getD i default ∧
      (interleaveStates n fw bw).getD (2 * i + 1) default = bw.getD i default := by
  intro n
  induction n with
  | zero =>
    intro i hi
    simp at hi
  | succ n ih =>
    intro i hi
    rw [interleaveStates_succ]
    by_cases hin : i < n
    · have h1 : 2 * i < (interleaveStates n fw bw).length := by
        rw [interleaveStates_length]
        omega
      have h2 : 2 * i + 1 < (interleaveStates n fw bw).length := by
        rw [interleaveStates_length]
        omega
      exact ⟨(List.getD_append _ _ _ _ h1).trans (ih i hin).1,
        (List.getD_append _ _ _ _ h2).trans (ih i hin).2⟩
    · have hieq : i = n := by omega
      subst hieq
      have hlen := interleaveStates_length fw bw i
      constructor
      · rw [List.getD_append_right _ _ _ _ (le_of_eq hlen), hlen]
        simp
      · rw [List.getD_append_right _ _ _ _ (by omega : (interleaveStates i fw bw).length ≤ 2 * i + 1), hlen]
        simp

/-- C6: the bidirectional encoder uses num_bi_layers = floor(num_layers/2)
forward and backward layers; with num_bi_layers = 1 its final state is the
raw (forward, backward) pair, and otherwise it is the flat interleaved
tuple (fwd 0, bwd 0, fwd 1, bwd 1, ...) of length 2 * num_bi_layers whose
even and odd positions hold the per-layer forward and backward states. -/
theorem C6_bi_encoder_state (σ : Type) [Inhabited σ] (numLayers : Nat)
    (fw bw : List σ) (f0 f1 b0 b1 : σ) :
    numBiLayersOf numLayers = numLayers / 2 ∧
    biEncoderState 1 fw bw = EncoderFinalState.pair fw bw ∧
    biEncoderState 2 [f0, f1] [b0, b1]
      = EncoderFinalState.interleaved [f0, b0, f1, b1] ∧
    (∀ nb : Nat, nb ≠ 1 →
      biEncoderState nb fw bw
        = EncoderFinalState.interleaved (interleaveStates nb fw bw)) ∧
    (∀ nb : Nat, (interleaveStates nb fw bw).length = 2 * nb) ∧
    (∀ nb i : Nat, i < nb →
      (interleaveStates nb fw bw).getD (2 * i) default = fw.getD i default ∧
      (interleaveStates nb fw bw).getD (2 * i + 1) default = bw.getD i default) :=
  ⟨rfl, rfl, rfl, fun nb hnb => by simp [biEncoderState, hnb],
    interleaveStates_length fw bw, interleaveStates_getD fw bw⟩

/-- Witness for C6 over a concrete two-layer state batch of naturals. -/
theorem C6_witness :
    (2 : Nat) ≠ 1 ∧
    biEncoderState 2 ([3, 4] : List Nat) [5, 6]
      = EncoderFinalState.interleaved (interleaveStates 2 [3, 4] [5, 6]) ∧
    (0 : Nat) < 2 ∧
    (interleaveStates 2 ([3, 4] : List Nat) [5, 6]).getD 0 default = 3 :=
  ⟨by decide,
    (C6_bi_encoder_state Nat 4 [3, 4] [5, 6] 3 4 5 6).2.2.2.1 2 (by decide),
    by decide,
    ((C6_bi_encoder_state Nat 4 ([3, 4] : List Nat) [5, 6] 3 4 5 6).2.2.2.2.2
      2 0 (by decide)).1⟩

/-- C7: the maximum number of inference decoding steps is the configured
cap tgt_max_len_infer whenever it is set (nonzero), and otherwise the
rounding of 2.0 times the largest source length observed in the batch,
which is exactly twice that maximum. -/
theorem C7_infer_maximum_iterations (cap : Nat) (lengths : List Nat) :
    getInferMaximumIterations cap lengths
      = if cap ≠ 0 then cap else 2 * lengths.foldr max 0 := by
  unfold getInferMaximumIterations
  by_cases hc : cap ≠ 0
  · rw [if_pos hc, if_pos hc]
  · rw [if_neg hc, if_neg hc]
    have h : ((lengths.foldr max 0 : Nat) : ℚ) * 2
        = ((2 * lengths.foldr max 0 : Nat) : ℚ) := by
      push_cast
      ring
    rw [h, round_natCast, Int.toNat_natCast]

/-- C9: beam search has strict priority, so with beam_width > 0 the beam
decoder is selected and the sampling temperature is ignored entirely; with
beam_width = 0 the sampling helper is selected exactly when the
temperature is strictly positive, and every temperature at most 0,
negative values included, selects the greedy helper. -/
theorem C9_strategy_selection (k : Nat) (t t2 : ℚ) :
    (0 < k → selectDecodeStrategy k t = DecodeStrategy.beamSearch k) ∧
    (0 < k → selectDecodeStrategy k t = selectDecodeStrategy k t2) ∧
    (selectDecodeStrategy 0 t = DecodeStrategy.sampling t ↔ 0 < t) ∧
    (t ≤ 0 → selectDecodeStrategy 0 t = DecodeStrategy.greedy) := by
  refine ⟨fun hk => ?_, fun hk => ?_, ?_, fun ht => ?_⟩
  · simp [selectDecodeStrategy, hk]
  · simp [selectDecodeStrategy, hk]
  · by_cases ht : 0 < t
    · simp [selectDecodeStrategy, ht]
    · simp [selectDecodeStrategy, ht]
  · simp [selectDecodeStrategy, not_lt.mpr ht]

/-- Witness for C9: beam width 2 beats a positive temperature, and a
negative temperature with no beam falls back to greedy. -/
theorem C9_witness :
    selectDecodeStrategy 2 5 = DecodeStrategy.beamSearch 2 ∧
    selectDecodeStrategy 0 (-3) = DecodeStrategy.greedy :=
  ⟨(C9_strategy_selection 2 5 5).1 (by decide),
    (C9_strategy_selection 0 (-3) 0).2.2.2 (by decide)⟩

/-- C8 counterexample: an EVAL-mode model constructed with the
unrecognized warmup scheme name "bogus" succeeds, because the warmup and
decay schemes are examined only when the mode is TRAIN; so construction
does not fail exactly when an unrecognized scheme name is configured. -/
theorem C8_counterexample :
    modelConstruct Mode.EVAL cfgBadWarmupEval = Except.ok () ∧
    cfgBadWarmupEval.warmup_scheme ≠ "t2t" :=
  ⟨rfl, by decide⟩

/-- C8 (amended): model construction fails exactly when encoder_type is
outside uni and bi, or attention is requested on the basic model variant,
or, for TRAIN-mode construction only, warmup_scheme is not t2t or a
non-empty decay_scheme is outside the three luong presets; in EVAL and
INFER modes the scheme names are never examined. -/
theorem C8_construction_errors (mode : Mode) (h : HParams) :
    modelConstruct mode h = Except.ok () ↔
      ((h.encoder_type = "uni" ∨ h.encoder_type = "bi") ∧ h.attention = false ∧
        (mode = Mode.TRAIN →
          h.warmup_scheme = "t2t" ∧
            (h.decay_scheme = "luong5" ∨ h.decay_scheme = "luong10" ∨
              h.decay_scheme = "luong234" ∨ h.decay_scheme = ""))) := by
  cases mode with
  | TRAIN =>
    cases hatt : h.attention <;>
      by_cases he1 : h.encoder_type = "uni" <;>
      by_cases he2 : h.encoder_type = "bi" <;>
      by_cases hw : h.warmup_scheme = "t2t" <;>
      by_cases hd1 : h.decay_scheme = "luong5" <;>
      by_cases hd2 : h.decay_scheme = "luong10" <;>
      by_cases hd3 : h.decay_scheme = "luong234" <;>
      by_cases hd4 : h.decay_scheme = "" <;>
      simp [modelConstruct, checkEncoderType, buildDecoderCell,
        warmupSchemeCheck, decayParams, he1, he2, hatt, hw, hd1, hd2, hd3, hd4]
  | EVAL =>
    cases hatt : h.attention <;>
      by_cases he1 : h.encoder_type = "uni" <;>
      by_cases he2 : h.encoder_type = "bi" <;>
      simp [modelConstruct, checkEncoderType, buildDecoderCell, he1, he2, hatt]
  | INFER =>
    cases hatt : h.attention <;>
      by_cases he1 : h.encoder_type = "uni" <;>
      by_cases he2 : h.encoder_type = "bi" <;>
      simp [modelConstruct, checkEncoderType, buildDecoderCell, he1, he2, hatt]

/-- Witness for C8: a well-formed TRAIN configuration constructs. -/
theorem C8_witness : modelConstruct Mode.TRAIN cfgGoodTrain = Except.ok () :=
  (C8_construction_errors Mode.TRAIN cfgGoodTrain).mpr
    ⟨Or.inr rfl, rfl, fun _ => ⟨rfl, Or.inl rfl⟩⟩

end NMT
